import Mathlib

/-!
Shallow embedding of `src/app.js`, the browser chat widget of the
taipei_marathon_English repository.  Strings are modelled as lists of
characters, JSON values as an inductive type, and the `sendText`
send/retry controller as a state-passing function driven by an
environment that supplies the HTTP responses.
-/

/-- Strings are modelled as lists of characters. -/
abbrev Str := List Char

/-- Character class of the JavaScript regex `\s` (also the character set
removed by `String.prototype.trim`): ASCII whitespace, NBSP, Ogham space,
the U+2000–U+200A range, line/paragraph separators, narrow NBSP, medium
mathematical space, ideographic space and the BOM. -/
def isJsWhitespace (c : Char) : Bool :=
  c = ' ' || c = '\t' || c = '\n' || c = '\x0b' || c = '\x0c' || c = '\r' ||
    c = '\u00a0' || c = '\u1680' || (0x2000 ≤ c.toNat && c.toNat ≤ 0x200a) ||
    c = '\u2028' || c = '\u2029' || c = '\u202f' || c = '\u205f' ||
    c = '\u3000' || c = '\ufeff'

/-- JavaScript `String.prototype.trim`: drop `\s` characters from both ends. -/
def jsTrim (s : Str) : Str :=
  ((s.dropWhile isJsWhitespace).reverse.dropWhile isJsWhitespace).reverse

/-- The two question-mark characters of the regexes in
`processQuestionMarks` (`src/app.js` lines 79 and 81): ASCII `?` and
fullwidth `？` (U+FF1F). -/
def isQuestionMark (c : Char) : Bool :=
  c = '?' || c = '？'

/-- Characters matched by `.` in a JavaScript regex without the `s` flag:
everything except the four line terminators. -/
def isJsDotChar (c : Char) : Bool :=
  !(c = '\n' || c = '\r' || c = '\u2028' || c = '\u2029')

/-- First pass of `processQuestionMarks` (`src/app.js` line 79):
`result.replace` of the regex `[?？]\s*$` by the empty string.  It can match at most once
(the match is anchored at the end of the string), and it matches exactly
when the last non-whitespace character is a question mark; the match spans
from that question mark to the end of the string. -/
def removeTrailingQM (s : Str) : Str :=
  match (s.reverse.dropWhile isJsWhitespace) with
  | c :: rest => if isQuestionMark c then rest.reverse else s
  | [] => s

/-- Second pass of `processQuestionMarks` (`src/app.js` line 81):
`result.replace(/[?？](?=.)/g, '\n')`.  A question mark is replaced by a
newline exactly when the next character exists and is not a line
terminator (the lookahead `.` does not match line terminators). -/
def replaceInternalQM : Str → Str
  | [] => []
  | [c] => [c]
  | c :: d :: rest =>
      (if isQuestionMark c && isJsDotChar d then '\n' else c) ::
        replaceInternalQM (d :: rest)

/-- Index of the last `'\n'` in a list, if any. -/
def lastNewlineIdx : Str → Option Nat
  | [] => none
  | c :: rest =>
      match lastNewlineIdx rest with
      | some k => some (k + 1)
      | none => if c = '\n' then some 0 else none

/-- Scanner of the third pass, with a structural bound on the number of
scanning steps (each step consumes at least one character, so a bound of
`s.length` is never exhausted; `collapseGo_fuel_irrelevant` makes this
precise).  Scanning left to right, a match of `/\n\s*\n/` starts at a
`'\n'`, greedily extends through following whitespace, and ends at the
last `'\n'` of that whitespace run; the match is replaced by a single
`'\n'` and scanning resumes after it (the replacement is not rescanned). -/
def collapseGo : Nat → Str → Str
  | _, [] => []
  | 0, s => s
  | fuel + 1, c :: rest =>
    if c = '\n' then
      match lastNewlineIdx (rest.takeWhile isJsWhitespace) with
      | some k => '\n' :: collapseGo fuel (rest.drop (k + 1))
      | none => c :: collapseGo fuel rest
    else c :: collapseGo fuel rest

/-- Third pass of `processQuestionMarks` (`src/app.js` line 83):
`result.replace(/\n\s*\n/g, '\n')`, with JavaScript single-pass global
`replace` semantics. -/
def collapseNewlineRuns (s : Str) : Str :=
  collapseGo s.length s

/-- Model of `processQuestionMarks` (`src/app.js` lines 76–85): remove a trailing
question mark, replace internal question marks by newlines, collapse
newline runs, and trim. -/
def processQuestionMarks (text : Str) : Str :=
  jsTrim (collapseNewlineRuns (replaceInternalQM (removeTrailingQM text)))

/-- Substring test, the model of JavaScript `String.prototype.includes`. -/
def strContains (hay needle : Str) : Bool :=
  match hay with
  | [] => needle.isEmpty
  | _ :: rest => needle.isPrefixOf hay || strContains rest needle

/-- Model of `containsSearchResultsAndHtml` (`src/app.js` lines 99–103): a falsy
(empty) string yields `false`; otherwise lowercase the text and test that
it contains both `"search results"` and `"html"`.  `toLowerCase` is
modelled by ASCII case mapping (`Char.toLower`), which agrees with
JavaScript on all ASCII text — the two search keys are ASCII. -/
def containsSearchResultsAndHtml (text : Str) : Bool :=
  if text.isEmpty then false
  else
    let lowerText := text.map Char.toLower
    strContains lowerText ("search results").toList &&
      strContains lowerText ("html").toList

/-- JSON values, the decoding target of the response body.  Numbers are
modelled as integers; no logic in `src/app.js` inspects a numeric payload
beyond truthiness and stringification. -/
inductive Json where
  | null
  | bool (b : Bool)
  | num (n : Int)
  | str (s : Str)
  | arr (xs : List Json)
  | obj (fields : List (Str × Json))

/-- Key lookup in an object's field list.  `JSON.parse` keeps the last of
duplicate keys, so the lookup takes the last binding. -/
def lookupKeyLast : List (Str × Json) → Str → Option Json
  | [], _ => none
  | (k, v) :: rest, key =>
      match lookupKeyLast rest key with
      | some r => some r
      | none => if k = key then some v else none

/-- JavaScript property read `data.key` for the keys the code uses:
`undefined` (modelled as `none`) on everything except an object carrying
the key. -/
def Json.getProp (v : Json) (key : Str) : Option Json :=
  match v with
  | .obj fields => lookupKeyLast fields key
  | _ => none

/-- JavaScript membership test (the `in` operator): true only for an
object carrying the key. -/
def Json.hasKey (v : Json) (key : Str) : Bool :=
  match v with
  | .obj fields => fields.any (fun kv => kv.1 = key)
  | _ => false

/-- JavaScript truthiness of a JSON value. -/
def jsTruthy : Json → Bool
  | .null => false
  | .bool b => b
  | .num n => n != 0
  | .str s => !s.isEmpty
  | .arr _ => true
  | .obj _ => true

/-- Truthiness of a possibly-undefined value; `undefined` is falsy. -/
def jsTruthyOpt : Option Json → Bool
  | none => false
  | some v => jsTruthy v

mutual

/-- JavaScript `String(v)` on a JSON value: strings unchanged, numbers and
literals by their decimal/keyword form, arrays joined by commas with null
elements blank, plain objects as `[object Object]`. -/
def jsStringOfJson : Json → Str
  | .null => ("null").toList
  | .bool true => ("true").toList
  | .bool false => ("false").toList
  | .num n => (toString n).toList
  | .str s => s
  | .obj _ => ("[object Object]").toList
  | .arr xs => List.intercalate (",").toList (jsArrayElems xs)

/-- Elements of `Array.prototype.join`: `null` becomes the empty string. -/
def jsArrayElems : List Json → List Str
  | [] => []
  | v :: rest =>
      (match v with
       | .null => []
       | w => jsStringOfJson w) :: jsArrayElems rest

end

/-- Hex digit for JSON string escapes. -/
def hexDigit (n : Nat) : Char :=
  Char.ofNat (if n < 10 then 48 + n else 87 + n)

/-- JSON escaping of one character, as `JSON.stringify` performs it. -/
def escapeJsonChar (c : Char) : Str :=
  if c = '"' then ['\\', '"']
  else if c = '\\' then ['\\', '\\']
  else if c = '\n' then ['\\', 'n']
  else if c = '\r' then ['\\', 'r']
  else if c = '\t' then ['\\', 't']
  else if c = '\x08' then ['\\', 'b']
  else if c = '\x0c' then ['\\', 'f']
  else if c.toNat < 32 then
    ['\\', 'u', '0', '0', hexDigit (c.toNat / 16), hexDigit (c.toNat % 16)]
  else [c]

/-- A JSON string literal: quoted and escaped. -/
def quoteJsonStr (s : Str) : Str :=
  '"' :: (s.map escapeJsonChar).flatten ++ ['"']

/-- Indentation produced by `JSON.stringify(_, null, 2)` at a nesting level. -/
def indentOf (lvl : Nat) : Str :=
  List.replicate (2 * lvl) ' '

mutual

/-- Model of `JSON.stringify(data, null, 2)` (line 217): two-space indented
pretty-printing. -/
def jsonStringify2 : Json → Nat → Str
  | .null, _ => ("null").toList
  | .bool true, _ => ("true").toList
  | .bool false, _ => ("false").toList
  | .num n, _ => (toString n).toList
  | .str s, _ => quoteJsonStr s
  | .arr [], _ => ("[]").toList
  | .arr (x :: xs), lvl =>
      ("[\n").toList ++
        List.intercalate ((",\n").toList) (stringifyItems (x :: xs) (lvl + 1)) ++
        '\n' :: (indentOf lvl ++ ("]").toList)
  | .obj [], _ => ("\x7b\x7d").toList
  | .obj (f :: fs), lvl =>
      ("\x7b\n").toList ++
        List.intercalate ((",\n").toList) (stringifyFields (f :: fs) (lvl + 1)) ++
        '\n' :: (indentOf lvl ++ ("\x7d").toList)

/-- Array items of `jsonStringify2`, each on its own indented line. -/
def stringifyItems : List Json → Nat → List Str
  | [], _ => []
  | v :: rest, lvl =>
      (indentOf lvl ++ jsonStringify2 v lvl) :: stringifyItems rest lvl

/-- Object fields of `jsonStringify2`, each `"key": value` on its own
indented line. -/
def stringifyFields : List (Str × Json) → Nat → List Str
  | [], _ => []
  | (k, v) :: rest, lvl =>
      (indentOf lvl ++ (quoteJsonStr k ++ ((": ").toList ++ jsonStringify2 v lvl))) ::
        stringifyFields rest lvl

end

/-- Fixed reply used when the payload carries no usable text (lines 200,
206, 208, 221). -/
def pleaseRephraseText : Str := ("Please rephrase your question.").toList

/-- Fixed reply for a plain empty object payload (line 215). -/
def networkErrorText : Str := ("Network error, please try again.").toList

/-- Error text thrown for HTTP 502/404 (line 191). -/
def networkUnstableText : Str := ("Network unstable, please try again.").toList

/-- Transient notice of the search-results retry (line 231). -/
def stillThinkingText : Str := ("Still thinking, please wait.").toList

/-- Transient notice of the soft-failure retry (line 262). -/
def retryNoticeText : Str := ("Network is unstable, retrying for you.").toList

/-- Terminal message after the second soft failure (line 278). -/
def finalErrorText : Str :=
  ("Sorry, the network is currently unstable. Please try again later.").toList

/-- Message substituted when the client is offline (line 288). -/
def offlineText : Str :=
  ("You are currently offline. Please check your connection and try again.").toList

def textKey : Str := ("text").toList
def messageKey : Str := ("message").toList
def errorKey : Str := ("error").toList
def errorRawKey : Str := ("errorRaw").toList
def bodyKey : Str := ("body").toList
def clientIdKey : Str := ("clientId").toList

/-- Decoding of the response body (lines 175-181): an empty raw body gives
`{}`; a parse failure on a non-empty body gives `{ errorRaw: raw }`.  The
environment supplies the parse result (`none` when `JSON.parse` throws). -/
def dataOf (raw : Str) (parsed : Option Json) : Json :=
  if raw.isEmpty then Json.obj []
  else
    match parsed with
    | some v => v
    | none => Json.obj [(errorRawKey, Json.str raw)]

/-- Outcome of one `fetch` as supplied by the environment: either the
promise rejects (transport error, with the rejection message) or a response
arrives with a status, a status text, a raw body and its parse result. -/
inductive FetchResult where
  | networkError (message : Str)
  | response (status : Nat) (statusText : Str) (raw : Str) (parsed : Option Json)

/-- Errors thrown inside the `try` block. -/
inductive JsError where
  | errorCode200
  | msg (m : Str)
deriving DecidableEq

/-- Result of the `try` block: a thrown error or an extracted reply text. -/
inductive TryOutcome where
  | threw (e : JsError)
  | reply (text : Str)
deriving DecidableEq

/-- Predicate `res.ok` of `fetch`: status in the 2xx range. -/
def resOk (status : Nat) : Bool :=
  decide (200 ≤ status) && decide (status ≤ 299)

/-- JavaScript `a || b` on possibly-undefined values: the first operand if
truthy, otherwise the second. -/
def jsOr (a b : Option Json) : Option Json :=
  if jsTruthyOpt a then a else b

/-- Line 193: `(data && (data.error || data.body || data.message)) ?? raw ??
"unknown error"`.  When `data` is falsy the `&&` yields `data` itself; `??`
replaces only `null`/`undefined` by `raw`; `raw` is a string, never
nullish, so the final `?? "unknown error"` cannot fire.  The template
literal then stringifies the chosen value. -/
def serverMsgOf (data : Json) (raw : Str) : Str :=
  let x : Option Json :=
    if jsTruthy data then
      jsOr (data.getProp errorKey) (jsOr (data.getProp bodyKey) (data.getProp messageKey))
    else some data
  match x with
  | none => raw
  | some .null => raw
  | some v => jsStringOfJson v

/-- Message of the error thrown for a non-ok status other than 502/404
(line 194). -/
def httpErrorText (status : Nat) (statusText : Str) (serverMsg : Str) : Str :=
  ("HTTP ").toList ++ ((toString status).toList ++ (' ' :: statusText ++
    ((" — ").toList ++ serverMsg)))

/-- Line 185: `data.text === "" || data.text === null || data.text ===
undefined`. -/
def isEmptyNullOrUndefined : Option Json → Bool
  | none => true
  | some .null => true
  | some (.str s) => s.isEmpty
  | some _ => false

/-- The ERROR_CODE_200 test (lines 184-185): status 200, truthy payload,
and a truthy `error` or `errorRaw` field or an absent/null/empty `text`
field. -/
def errorCode200Cond (status : Nat) (data : Json) : Bool :=
  status == 200 && jsTruthy data &&
    (jsTruthyOpt (data.getProp errorKey) || jsTruthyOpt (data.getProp errorRawKey) ||
      isEmptyNullOrUndefined (data.getProp textKey))

/-- Lines 203-209: `text`/`message` value handling once a `text` or
`message` key is present: empty/null/undefined values give the fixed
rephrase text, anything else is stringified and trimmed (an all-whitespace
result also falls back to the rephrase text). -/
def replyFromTextValue : Option Json → Str
  | none => pleaseRephraseText
  | some .null => pleaseRephraseText
  | some (.str []) => pleaseRephraseText
  | some v =>
      let t := jsTrim (jsStringOfJson v)
      if t.isEmpty then pleaseRephraseText else t

/-- Reply-text computation (lines 198-222). -/
def extractReply (data : Json) : Str :=
  match data with
  | .str s =>
      let t := jsTrim s
      if t.isEmpty then pleaseRephraseText else t
  | .null | .num _ | .bool _ => pleaseRephraseText
  | .obj fields =>
      if Json.hasKey (.obj fields) textKey || Json.hasKey (.obj fields) messageKey then
        replyFromTextValue
          (match lookupKeyLast fields textKey with
           | some v => some v
           | none => lookupKeyLast fields messageKey)
      else if (fields.filter (fun kv => !(kv.1 = clientIdKey))).isEmpty then
        networkErrorText
      else jsonStringify2 (Json.obj fields) 0
  | .arr xs => jsonStringify2 (Json.arr xs) 0

/-- The `try` block (lines 159-222) up to the search-results check: the
fetch outcome is classified into a thrown error or an extracted reply
text. -/
def tryBlock (r : FetchResult) : TryOutcome :=
  match r with
  | .networkError m => .threw (.msg m)
  | .response status statusText raw parsed =>
      let data := dataOf raw parsed
      if errorCode200Cond status data then .threw .errorCode200
      else if !resOk status then
        if status == 502 || status == 404 then .threw (.msg networkUnstableText)
        else .threw (.msg (httpErrorText status statusText (serverMsgOf data raw)))
      else .reply (extractReply data)

/-- Message roles. -/
inductive Role where
  | user
  | assistant
deriving DecidableEq

/-- A conversation message.  The random `id` and the `ts` clock stamp of
the source are not modelled: nothing in the logic ever reads them. -/
structure Msg where
  role : Role
  text : Str
deriving DecidableEq

/-- The mutable state `sendText` touches: the message store, the input
field, the thinking flag, and the request bodies sent so far (the length
of `requests` is the number of network calls made). -/
structure ChatState where
  messages : List Msg
  input : Str
  thinking : Bool
  requests : List Str
deriving DecidableEq

/-- Environment of one logical turn: the fetch outcome served to attempt
`k` (the call made with `retryCount = k`), and `navigator.onLine`. -/
structure Env where
  responses : List FetchResult
  onLine : Bool

/-- Fetch outcome of attempt `k`; a missing entry behaves as a rejected
fetch. -/
def respAt (env : Env) (k : Nat) : FetchResult :=
  env.responses.getD k (FetchResult.networkError (("Failed to fetch").toList))

/-- Append one message to the store. -/
def pushMsg (role : Role) (text : Str) (st : ChatState) : ChatState :=
  { st with messages := st.messages ++ [⟨role, text⟩] }

/-- Lines 150-155: on the first attempt only, append the user message and
clear the input field. -/
def appendUserIfFirst (content : Str) (retryCount : Nat) (st : ChatState) : ChatState :=
  if retryCount == 0 then { pushMsg .user content st with input := [] } else st

/-- Line 288: `(!navigator.onLine && "You are currently offline. …") ||
`${err?.message || err}``; `String(err)` for an `Error` with an empty
message is `"Error"`. -/
def friendlyOf (onLine : Bool) (m : Str) : Str :=
  if !onLine then offlineText
  else if m.isEmpty then ("Error").toList else m

/-- Model of `sendText` (lines 143-298) as a state transformer.  The source
function recurses at most once (every recursive call passes
`retryCount + 1` and is guarded by `retryCount === 0`); `fuel` is a
structural bound on that recursion.  `sendText` below instantiates it
with 2, which the fuel-irrelevance lemma shows is never exhausted. -/
def sendTextFuel : Nat → Env → Option Str → Nat → ChatState → ChatState
  | 0, _, _, _, st => st
  | fuel + 1, env, text, retryCount, st =>
    let content := jsTrim (text.getD st.input)
    if content.isEmpty then st
    else
      let contentToSend := processQuestionMarks content
      let st1 := appendUserIfFirst content retryCount st
      let st2 := { st1 with thinking := true }
      let st3 := { st2 with requests := st2.requests ++ [contentToSend] }
      match tryBlock (respAt env retryCount) with
      | .reply replyText =>
          if containsSearchResultsAndHtml replyText && retryCount == 0 then
            let st4 := pushMsg .assistant stillThinkingText st3
            let st5 := { st4 with thinking := false }
            sendTextFuel fuel env (some content) (retryCount + 1) st5
          else
            let st4 := pushMsg .assistant replyText st3
            { st4 with thinking := false }
      | .threw e =>
          let st4 := { st3 with thinking := false }
          match e with
          | .errorCode200 =>
              if retryCount == 0 then
                sendTextFuel fuel env (some content) (retryCount + 1)
                  (pushMsg .assistant retryNoticeText st4)
              else pushMsg .assistant finalErrorText st4
          | .msg m => pushMsg .assistant (friendlyOf env.onLine m) st4

/-- Entry point: `sendText(text)` with `retryCount = 0`. -/
def sendText (env : Env) (text : Option Str) (st : ChatState) : ChatState :=
  sendTextFuel 2 env text 0 st

/-! ### Helper lemmas about the scanning passes -/

theorem collapseGo_nil (f : Nat) : collapseGo f [] = [] := by
  cases f <;> rfl

theorem collapseGo_fuel_irrelevant (f : Nat) :
    ∀ s : Str, s.length ≤ f → collapseGo f s = collapseGo s.length s := by
  induction f using Nat.strong_induction_on with
  | _ f ih =>
    intro s hs
    cases s with
    | nil => simp [collapseGo_nil]
    | cons c rest =>
      cases f with
      | zero => simp at hs
      | succ f' =>
        have hr : rest.length ≤ f' := by
          simpa using hs
        simp only [List.length_cons, collapseGo]
        by_cases hc : c = '\n'
        · cases hln : lastNewlineIdx (rest.takeWhile isJsWhitespace) with
          | some k =>
            have hd : (rest.drop (k + 1)).length ≤ rest.length := by
              simp
            simp only [hc, if_true, hln]
            rw [ih f' (by omega) _ (le_trans hd hr),
              ih rest.length (by omega) _ hd]
          | none =>
            simp only [hc, if_true, hln]
            rw [ih f' (by omega) _ hr]
        · simp only [hc, if_false]
          rw [ih f' (by omega) _ hr]

theorem collapseNewlineRuns_nil : collapseNewlineRuns [] = [] := rfl

theorem collapseNewlineRuns_cons_of_ne {c : Char} (rest : Str) (h : ¬c = '\n') :
    collapseNewlineRuns (c :: rest) = c :: collapseNewlineRuns rest := by
  simp only [collapseNewlineRuns, List.length_cons, collapseGo, h, if_false]

theorem collapseNewlineRuns_newline_none {rest : Str}
    (h : lastNewlineIdx (rest.takeWhile isJsWhitespace) = none) :
    collapseNewlineRuns ('\n' :: rest) = '\n' :: collapseNewlineRuns rest := by
  simp only [collapseNewlineRuns, List.length_cons, collapseGo, h, if_true]

theorem collapseNewlineRuns_newline_some {rest : Str} {k : Nat}
    (h : lastNewlineIdx (rest.takeWhile isJsWhitespace) = some k) :
    collapseNewlineRuns ('\n' :: rest) =
      '\n' :: collapseNewlineRuns (rest.drop (k + 1)) := by
  have hd : (rest.drop (k + 1)).length ≤ rest.length := by simp
  simp only [collapseNewlineRuns, List.length_cons, collapseGo, h, if_true]
  rw [collapseGo_fuel_irrelevant rest.length _ hd]


/-- Whitespace prefix free of newlines: from this point the scanner can
reach no `'\n'` through whitespace alone. -/
def wsPrefixClear (l : Str) : Bool :=
  (l.takeWhile isJsWhitespace).all (fun c => !(c = '\n'))

/-- No two newlines separated only by whitespace occur in the string; in
particular there are no two consecutive newlines, hence not even one
blank line, let alone two. -/
def noBlankGap : Str → Bool
  | [] => true
  | c :: rest => (if c = '\n' then wsPrefixClear rest else true) && noBlankGap rest

theorem wsPrefixClear_iff (l : Str) :
    wsPrefixClear l = true ↔ ∀ c ∈ l.takeWhile isJsWhitespace, ¬c = '\n' := by
  simp [wsPrefixClear, List.all_eq_true]

theorem noBlankGap_cons (c : Char) (rest : Str) :
    noBlankGap (c :: rest) =
      ((if c = '\n' then wsPrefixClear rest else true) && noBlankGap rest) := rfl

theorem lastNewlineIdx_eq_none_iff (l : Str) :
    lastNewlineIdx l = none ↔ ∀ c ∈ l, ¬c = '\n' := by
  induction l with
  | nil => simp [lastNewlineIdx]
  | cons c rest ih =>
    simp only [lastNewlineIdx]
    cases h : lastNewlineIdx rest with
    | some k =>
      simp only [List.mem_cons]
      constructor
      · intro hc; cases hc
      · intro hall
        have hrest : ∀ c ∈ rest, ¬c = '\n' := fun c hc => hall c (Or.inr hc)
        have hnone := ih.mpr hrest
        rw [h] at hnone
        cases hnone
    | none =>
      by_cases hc : c = '\n'
      · simp [hc]
      · simp only [hc, if_false, List.mem_cons]
        constructor
        · intro _ d hd
          rcases hd with rfl | hd
          · exact hc
          · exact (ih.mp h) d hd
        · intro _; trivial

theorem lastNewlineIdx_some (l : Str) (k : Nat) (h : lastNewlineIdx l = some k) :
    k < l.length ∧ ∀ c ∈ l.drop (k + 1), ¬c = '\n' := by
  induction l generalizing k with
  | nil => simp [lastNewlineIdx] at h
  | cons c rest ih =>
    simp only [lastNewlineIdx] at h
    cases hr : lastNewlineIdx rest with
    | some k' =>
      rw [hr] at h
      obtain rfl : k' + 1 = k := Option.some.inj h
      obtain ⟨hlt, hdrop⟩ := ih k' hr
      refine ⟨by simpa using Nat.succ_lt_succ hlt, ?_⟩
      simpa [List.drop_succ_cons] using hdrop
    | none =>
      rw [hr] at h
      by_cases hc : c = '\n'
      · simp only [hc, if_true] at h
        obtain rfl : 0 = k := Option.some.inj h
        refine ⟨by simp, ?_⟩
        simpa [List.drop_succ_cons] using (lastNewlineIdx_eq_none_iff rest).mp hr
      · simp [hc] at h

theorem dropWhile_head_false {p : Char → Bool} (l : Str) (c : Char) (rest : Str)
    (h : l.dropWhile p = c :: rest) : p c = false := by
  induction l with
  | nil => simp at h
  | cons a l' ih =>
    rw [List.dropWhile_cons] at h
    by_cases hp : p a = true
    · rw [if_pos hp] at h
      exact ih h
    · rw [if_neg hp] at h
      obtain ⟨rfl, -⟩ := List.cons.inj h
      exact Bool.eq_false_iff.mpr hp

theorem takeWhile_append_all {p : Char → Bool} (pre s : Str)
    (h : ∀ c ∈ pre, p c = true) :
    (pre ++ s).takeWhile p = pre ++ s.takeWhile p := by
  induction pre with
  | nil => simp
  | cons c pre' ih =>
    rw [List.cons_append, List.takeWhile_cons, if_pos (h c (by simp)),
      ih (fun d hd => h d (by simp [hd])), List.cons_append]

theorem takeWhile_dropWhile_nil {p : Char → Bool} (l : Str) :
    (l.dropWhile p).takeWhile p = [] := by
  cases h : l.dropWhile p with
  | nil => simp
  | cons d r =>
    rw [List.takeWhile_cons, if_neg (by simp [dropWhile_head_false l d r h])]

theorem collapse_ws_prefix (pre s : Str)
    (hws : ∀ c ∈ pre, isJsWhitespace c = true) (hnl : ∀ c ∈ pre, ¬c = '\n') :
    collapseNewlineRuns (pre ++ s) = pre ++ collapseNewlineRuns s := by
  induction pre with
  | nil => simp
  | cons c pre' ih =>
    rw [List.cons_append, collapseNewlineRuns_cons_of_ne _ (hnl c (by simp)),
      ih (fun d hd => hws d (by simp [hd])) (fun d hd => hnl d (by simp [hd])),
      List.cons_append]

theorem wsPrefixClear_collapse (s : Str)
    (h : ∀ c ∈ s.takeWhile isJsWhitespace, ¬c = '\n') :
    wsPrefixClear (collapseNewlineRuns s) = true := by
  have hsplit : s.takeWhile isJsWhitespace ++ s.dropWhile isJsWhitespace = s :=
    List.takeWhile_append_dropWhile isJsWhitespace s
  have hws : ∀ c ∈ s.takeWhile isJsWhitespace, isJsWhitespace c = true :=
    fun c hc => List.mem_takeWhile_imp hc
  have hcol : collapseNewlineRuns s =
      s.takeWhile isJsWhitespace ++ collapseNewlineRuns (s.dropWhile isJsWhitespace) := by
    conv_lhs => rw [← hsplit]
    exact collapse_ws_prefix _ _ hws h
  rw [hcol, wsPrefixClear_iff]
  cases hdw : s.dropWhile isJsWhitespace with
  | nil =>
    rw [collapseNewlineRuns_nil, List.append_nil]
    intro c hc
    exact h c ((List.takeWhile_sublist _).subset hc)
  | cons d r =>
    have hd : isJsWhitespace d = false := dropWhile_head_false s d r hdw
    have hdn : ¬d = '\n' := by
      intro hdeq
      rw [hdeq] at hd
      simp [isJsWhitespace] at hd
    rw [collapseNewlineRuns_cons_of_ne _ hdn,
      takeWhile_append_all _ _ hws, List.takeWhile_cons, if_neg (by simp [hd]),
      List.append_nil]
    exact h

theorem noBlankGap_collapse (s : Str) :
    noBlankGap (collapseNewlineRuns s) = true := by
  suffices H : ∀ (n : Nat) (s : Str), s.length ≤ n →
      noBlankGap (collapseNewlineRuns s) = true from H s.length s le_rfl
  intro n
  induction n with
  | zero =>
    intro s hs
    obtain rfl : s = [] := List.eq_nil_of_length_eq_zero (Nat.le_zero.mp hs)
    simp [collapseNewlineRuns_nil, noBlankGap]
  | succ n ih =>
    intro s hs
    cases s with
    | nil => simp [collapseNewlineRuns_nil, noBlankGap]
    | cons c rest =>
      have hrest : rest.length ≤ n := by simpa using hs
      by_cases hc : c = '\n'
      · subst hc
        cases hln : lastNewlineIdx (rest.takeWhile isJsWhitespace) with
        | none =>
          rw [collapseNewlineRuns_newline_none hln, noBlankGap_cons, if_pos rfl,
            Bool.and_eq_true]
          exact ⟨wsPrefixClear_collapse rest ((lastNewlineIdx_eq_none_iff _).mp hln),
            ih rest hrest⟩
        | some k =>
          obtain ⟨hk, hafter⟩ := lastNewlineIdx_some _ _ hln
          rw [collapseNewlineRuns_newline_some hln, noBlankGap_cons, if_pos rfl,
            Bool.and_eq_true]
          have hlen : (rest.drop (k + 1)).length ≤ n :=
            le_trans (by simp) hrest
          refine ⟨?_, ih _ hlen⟩
          apply wsPrefixClear_collapse
          intro c hc
          -- the whitespace prefix of `rest.drop (k + 1)` is the tail of the
          -- whitespace run past its last newline
          have hsplit : rest.takeWhile isJsWhitespace ++ rest.dropWhile isJsWhitespace
              = rest := List.takeWhile_append_dropWhile isJsWhitespace rest
          have hdrop : rest.drop (k + 1) =
              (rest.takeWhile isJsWhitespace).drop (k + 1) ++
                rest.dropWhile isJsWhitespace := by
            conv_lhs => rw [← hsplit]
            rw [List.drop_append_eq_append_drop,
              Nat.sub_eq_zero_of_le hk, List.drop_zero]
          have hws' : ∀ d ∈ (rest.takeWhile isJsWhitespace).drop (k + 1),
              isJsWhitespace d = true := fun d hd =>
            List.mem_takeWhile_imp ((List.drop_subset _ _) hd)
          rw [hdrop, takeWhile_append_all _ _ hws', takeWhile_dropWhile_nil,
            List.append_nil] at hc
          exact hafter c hc
      · rw [collapseNewlineRuns_cons_of_ne _ hc, noBlankGap_cons, if_neg hc,
          Bool.true_and]
        exact ih rest hrest

theorem noBlankGap_append_right (a b : Str) (h : noBlankGap (a ++ b) = true) :
    noBlankGap b = true := by
  induction a with
  | nil => exact h
  | cons c a' ih =>
    rw [List.cons_append, noBlankGap_cons, Bool.and_eq_true] at h
    exact ih h.2

theorem takeWhile_prefix_mono {p : Char → Bool} (l t : Str) :
    (l.takeWhile p) <+: ((l ++ t).takeWhile p) := by
  induction l with
  | nil => simp
  | cons c l' ih =>
    rw [List.cons_append, List.takeWhile_cons, List.takeWhile_cons]
    by_cases hp : p c = true
    · rw [if_pos hp, if_pos hp]
      exact (List.cons_prefix_cons).mpr ⟨rfl, ih⟩
    · rw [if_neg hp, if_neg hp]

theorem wsPrefixClear_mono (a t : Str) (h : wsPrefixClear (a ++ t) = true) :
    wsPrefixClear a = true := by
  rw [wsPrefixClear_iff] at h ⊢
  intro c hc
  exact h c ((takeWhile_prefix_mono a t).subset hc)

theorem noBlankGap_append_left (a t : Str) (h : noBlankGap (a ++ t) = true) :
    noBlankGap a = true := by
  induction a with
  | nil => rfl
  | cons c a' ih =>
    rw [List.cons_append, noBlankGap_cons, Bool.and_eq_true] at h
    obtain ⟨h1, h2⟩ := h
    rw [noBlankGap_cons, Bool.and_eq_true]
    refine ⟨?_, ih h2⟩
    by_cases hc : c = '\n'
    · rw [if_pos hc]
      rw [if_pos hc] at h1
      exact wsPrefixClear_mono a' t h1
    · rw [if_neg hc]

theorem noBlankGap_jsTrim (s : Str) (h : noBlankGap s = true) :
    noBlankGap (jsTrim s) = true := by
  have h1 : noBlankGap (s.dropWhile isJsWhitespace) = true := by
    obtain ⟨pre, hpre⟩ := List.dropWhile_suffix (l := s) isJsWhitespace
    exact noBlankGap_append_right pre _ (by rw [hpre]; exact h)
  have hpref : jsTrim s <+: s.dropWhile isJsWhitespace := by
    have hdef : jsTrim s =
        List.rdropWhile isJsWhitespace (s.dropWhile isJsWhitespace) := rfl
    rw [hdef]
    exact List.rdropWhile_prefix _ _
  obtain ⟨t, ht⟩ := hpref
  exact noBlankGap_append_left _ t (by rw [ht]; exact h1)

theorem processQuestionMarks_noBlankGap (s : Str) :
    noBlankGap (processQuestionMarks s) = true :=
  noBlankGap_jsTrim _ (noBlankGap_collapse _)

theorem dropWhile_of_prefix {p : Char → Bool} (l l' : Str)
    (h : l' <+: l.dropWhile p) : l'.dropWhile p = l' := by
  cases l' with
  | nil => rfl
  | cons c rest =>
    obtain ⟨t, ht⟩ := h
    have hc : p c = false :=
      dropWhile_head_false l c (rest ++ t) (by rw [← ht, List.cons_append])
    rw [List.dropWhile_cons, if_neg (by simp [hc])]

theorem jsTrim_idem (s : Str) : jsTrim (jsTrim s) = jsTrim s := by
  have key : jsTrim (jsTrim s) =
      List.rdropWhile isJsWhitespace ((jsTrim s).dropWhile isJsWhitespace) := rfl
  have h1 : (jsTrim s).dropWhile isJsWhitespace = jsTrim s := by
    apply dropWhile_of_prefix s
    have hdef : jsTrim s =
        List.rdropWhile isJsWhitespace (s.dropWhile isJsWhitespace) := rfl
    rw [hdef]
    exact List.rdropWhile_prefix _ _
  rw [key, h1]
  have hdef : jsTrim s =
      List.rdropWhile isJsWhitespace (s.dropWhile isJsWhitespace) := rfl
  rw [hdef, List.rdropWhile_idempotent]

/-! ### Helper lemmas about the send/retry controller -/

/-- Lines 157-297 of `sendText`: the network attempt performed on a state
that (on a first attempt) already carries the user message.
`sendTextFuel_decompose` shows that `sendTextFuel` is exactly this attempt
run on the user-appended state. -/
def sendTextAttempt (fuel : Nat) (env : Env) (content : Str) (retryCount : Nat)
    (st : ChatState) : ChatState :=
  let contentToSend := processQuestionMarks content
  let st2 := { st with thinking := true }
  let st3 := { st2 with requests := st2.requests ++ [contentToSend] }
  match tryBlock (respAt env retryCount) with
  | .reply replyText =>
      if containsSearchResultsAndHtml replyText && retryCount == 0 then
        let st4 := pushMsg .assistant stillThinkingText st3
        let st5 := { st4 with thinking := false }
        sendTextFuel fuel env (some content) (retryCount + 1) st5
      else
        let st4 := pushMsg .assistant replyText st3
        { st4 with thinking := false }
  | .threw e =>
      let st4 := { st3 with thinking := false }
      match e with
      | .errorCode200 =>
          if retryCount == 0 then
            sendTextFuel fuel env (some content) (retryCount + 1)
              (pushMsg .assistant retryNoticeText st4)
          else pushMsg .assistant finalErrorText st4
      | .msg m => pushMsg .assistant (friendlyOf env.onLine m) st4

theorem sendTextFuel_decompose (fuel : Nat) (env : Env) (text : Option Str)
    (retryCount : Nat) (st : ChatState) :
    sendTextFuel (fuel + 1) env text retryCount st =
      (if (jsTrim (text.getD st.input)).isEmpty then st
       else
         sendTextAttempt fuel env (jsTrim (text.getD st.input)) retryCount
           (appendUserIfFirst (jsTrim (text.getD st.input)) retryCount st)) := rfl

theorem sendTextFuel_of_empty (fuel : Nat) (env : Env) (text : Option Str)
    (retryCount : Nat) (st : ChatState) (h : jsTrim (text.getD st.input) = []) :
    sendTextFuel fuel env text retryCount st = st := by
  cases fuel with
  | zero => rfl
  | succ f => rw [sendTextFuel_decompose, if_pos (by simp [h])]

theorem sendTextFuel_of_nonempty (fuel : Nat) (env : Env) (text : Option Str)
    (retryCount : Nat) (st : ChatState) (h : ¬jsTrim (text.getD st.input) = []) :
    sendTextFuel (fuel + 1) env text retryCount st =
      sendTextAttempt fuel env (jsTrim (text.getD st.input)) retryCount
        (appendUserIfFirst (jsTrim (text.getD st.input)) retryCount st) := by
  rw [sendTextFuel_decompose, if_neg (by simpa [List.isEmpty_iff] using h)]

theorem sendTextAttempt_one (fuel : Nat) (env : Env) (content : Str)
    (st : ChatState) :
    ∃ finalMsg : Msg, finalMsg.role = Role.assistant ∧
      sendTextAttempt fuel env content 1 st =
        { st with
            messages := st.messages ++ [finalMsg],
            thinking := false,
            requests := st.requests ++ [processQuestionMarks content] } := by
  obtain ⟨msgs, inp, thk, reqs⟩ := st
  unfold sendTextAttempt
  cases htb : tryBlock (respAt env 1) with
  | reply t =>
    refine ⟨⟨Role.assistant, t⟩, rfl, ?_⟩
    simp [pushMsg]
  | threw e =>
    cases e with
    | errorCode200 =>
      exact ⟨⟨Role.assistant, finalErrorText⟩, rfl, by simp [pushMsg]⟩
    | msg m =>
      exact ⟨⟨Role.assistant, friendlyOf env.onLine m⟩, rfl, by simp [pushMsg]⟩

theorem sendText_turn_shape (env : Env) (text : Option Str) (st : ChatState)
    (h : ¬jsTrim (text.getD st.input) = []) :
    ∃ (transient : List Msg) (finalMsg : Msg),
      transient.length ≤ 1 ∧
      (∀ m ∈ transient, m.role = Role.assistant) ∧
      finalMsg.role = Role.assistant ∧
      sendText env text st =
        { messages := st.messages ++
            (⟨Role.user, jsTrim (text.getD st.input)⟩ :: (transient ++ [finalMsg])),
          input := [],
          thinking := false,
          requests := st.requests ++
            List.replicate (transient.length + 1)
              (processQuestionMarks (jsTrim (text.getD st.input))) } := by
  have hidem : jsTrim (jsTrim (text.getD st.input)) = jsTrim (text.getD st.input) :=
    jsTrim_idem _
  have hne : (jsTrim (text.getD st.input)).isEmpty = false := by
    simpa [List.isEmpty_iff] using h
  obtain ⟨msgs, inp, thk, reqs⟩ := st
  cases htb : tryBlock (respAt env 0) with
  | reply t =>
    cases hsr : containsSearchResultsAndHtml t with
    | false =>
      refine ⟨[], ⟨Role.assistant, t⟩, by simp, by simp, rfl, ?_⟩
      simp [sendText, sendTextFuel, sendTextAttempt, appendUserIfFirst, pushMsg,
        hne, htb, hsr, List.append_assoc]
    | true =>
      cases htb2 : tryBlock (respAt env 1) with
      | reply t2 =>
        refine ⟨[⟨Role.assistant, stillThinkingText⟩], ⟨Role.assistant, t2⟩,
          by simp, by simp, rfl, ?_⟩
        simp [sendText, sendTextFuel, sendTextAttempt, appendUserIfFirst, pushMsg,
          hne, hidem, htb, htb2, hsr, List.append_assoc, List.replicate_succ]
      | threw e =>
        cases e with
        | errorCode200 =>
          refine ⟨[⟨Role.assistant, stillThinkingText⟩], ⟨Role.assistant, finalErrorText⟩,
            by simp, by simp, rfl, ?_⟩
          simp [sendText, sendTextFuel, sendTextAttempt, appendUserIfFirst, pushMsg,
            hne, hidem, htb, htb2, hsr, List.append_assoc, List.replicate_succ]
        | msg m =>
          refine ⟨[⟨Role.assistant, stillThinkingText⟩],
            ⟨Role.assistant, friendlyOf env.onLine m⟩, by simp, by simp, rfl, ?_⟩
          simp [sendText, sendTextFuel, sendTextAttempt, appendUserIfFirst, pushMsg,
            hne, hidem, htb, htb2, hsr, List.append_assoc, List.replicate_succ]
  | threw e =>
    cases e with
    | errorCode200 =>
      cases htb2 : tryBlock (respAt env 1) with
      | reply t2 =>
        refine ⟨[⟨Role.assistant, retryNoticeText⟩], ⟨Role.assistant, t2⟩,
          by simp, by simp, rfl, ?_⟩
        simp [sendText, sendTextFuel, sendTextAttempt, appendUserIfFirst, pushMsg,
          hne, hidem, htb, htb2, List.append_assoc, List.replicate_succ]
      | threw e2 =>
        cases e2 with
        | errorCode200 =>
          refine ⟨[⟨Role.assistant, retryNoticeText⟩], ⟨Role.assistant, finalErrorText⟩,
            by simp, by simp, rfl, ?_⟩
          simp [sendText, sendTextFuel, sendTextAttempt, appendUserIfFirst, pushMsg,
            hne, hidem, htb, htb2, List.append_assoc, List.replicate_succ]
        | msg m =>
          refine ⟨[⟨Role.assistant, retryNoticeText⟩],
            ⟨Role.assistant, friendlyOf env.onLine m⟩, by simp, by simp, rfl, ?_⟩
          simp [sendText, sendTextFuel, sendTextAttempt, appendUserIfFirst, pushMsg,
            hne, hidem, htb, htb2, List.append_assoc, List.replicate_succ]
    | msg m =>
      refine ⟨[], ⟨Role.assistant, friendlyOf env.onLine m⟩, by simp, by simp, rfl, ?_⟩
      simp [sendText, sendTextFuel, sendTextAttempt, appendUserIfFirst, pushMsg,
        hne, htb, List.append_assoc]

/-! ### Claim theorems -/

/-- C9: for every input that is empty or whitespace-only after trimming,
`sendText` is a no-op: it appends no message, issues no network call, and
leaves the conversation store, input field and busy flag unchanged. -/
theorem sendText_empty_input_noop (env : Env) (text : Option Str) (st : ChatState)
    (h : jsTrim (text.getD st.input) = []) :
    sendText env text st = st :=
  sendTextFuel_of_empty 2 env text 0 st h

/-- Witness for C9 at a whitespace-only input. -/
theorem sendText_empty_input_noop_witness :
    jsTrim ((some (("   ").toList)).getD
        (ChatState.mk [] [] false []).input) = [] ∧
    sendText (Env.mk [] true) (some (("   ").toList)) (ChatState.mk [] [] false []) =
      ChatState.mk [] [] false [] :=
  ⟨by decide, sendText_empty_input_noop (Env.mk [] true) _ _ (by decide)⟩

/-- C2 counterexample: the claimed example value is wrong — the space
after the first question mark survives, so
`processQuestionMarks "A? B?"` is `"A\n B"`, not `"A\nB"`. -/
theorem processQuestionMarks_example_counterexample :
    ¬processQuestionMarks (("A? B?").toList) = ("A\nB").toList := by decide

/-- C2 (amended): `processQuestionMarks` never produces two newlines
separated only by whitespace (so never two consecutive blank lines — not
even one); a question mark immediately followed by a character other than
a line terminator becomes a newline, but following whitespace is kept and
a question mark followed by a newline is kept; a single trailing question
mark (with trailing whitespace) is removed.  In particular
`"A? B?" ↦ "A\n B"` (not `"A\nB"`), `"A?" ↦ "A"`, `"A?\nB" ↦ "A?\nB"`,
`"A?  " ↦ "A"` and `"B？" ↦ "B"`. -/
theorem processQuestionMarks_behavior :
    (∀ s : Str, noBlankGap (processQuestionMarks s) = true) ∧
    processQuestionMarks (("A? B?").toList) = ("A\n B").toList ∧
    processQuestionMarks (("A?").toList) = ("A").toList ∧
    processQuestionMarks (("A?\nB").toList) = ("A?\nB").toList ∧
    processQuestionMarks (("A?  ").toList) = ("A").toList ∧
    processQuestionMarks (("B？").toList) = ("B").toList :=
  ⟨processQuestionMarks_noBlankGap, by decide, by decide, by decide, by decide,
    by decide⟩

/-- C6: the retry recursion of `sendText` is bounded: a logical user turn
issues at most two network requests in total, and an invocation that
already runs with `retryCount = 1` issues at most one more request (no
path recurses again), whatever the environment replies. -/
theorem sendText_at_most_two_requests :
    (∀ (env : Env) (text : Option Str) (st : ChatState),
      (sendText env text st).requests.length ≤ st.requests.length + 2) ∧
    (∀ (fuel : Nat) (env : Env) (text : Option Str) (st : ChatState),
      (sendTextFuel fuel env text 1 st).requests.length ≤ st.requests.length + 1) := by
  constructor
  · intro env text st
    by_cases h : jsTrim (text.getD st.input) = []
    · rw [show sendText env text st = sendTextFuel 2 env text 0 st from rfl,
        sendTextFuel_of_empty 2 env text 0 st h]
      omega
    · obtain ⟨tr, fm, hlen, -, -, heq⟩ := sendText_turn_shape env text st h
      rw [heq]
      simp only [List.length_append, List.length_replicate]
      omega
  · intro fuel env text st
    cases fuel with
    | zero => simp [sendTextFuel]
    | succ f =>
      by_cases h : jsTrim (text.getD st.input) = []
      · rw [sendTextFuel_of_empty (f + 1) env text 1 st h]
        omega
      · rw [sendTextFuel_of_nonempty f env text 1 st h]
        have happ : appendUserIfFirst (jsTrim (text.getD st.input)) 1 st = st := rfl
        rw [happ]
        obtain ⟨fm, -, heq⟩ :=
          sendTextAttempt_one f env (jsTrim (text.getD st.input)) st
        rw [heq]
        simp

/-- C7: for every send with non-empty trimmed input, the terminating
branch clears the thinking flag and appends exactly one final message,
which is assistant-role; every earlier appended message corresponds
one-to-one to a network call (the user message for call one plus one
transient notice per retry), so no terminal outcome produces zero or more
than one final visible message. -/
theorem sendText_single_terminal_message (env : Env) (text : Option Str)
    (st : ChatState) (h : ¬jsTrim (text.getD st.input) = []) :
    (sendText env text st).thinking = false ∧
    ∃ (preceding : List Msg) (finalMsg : Msg),
      finalMsg.role = Role.assistant ∧
      (sendText env text st).messages = st.messages ++ preceding ++ [finalMsg] ∧
      preceding.length =
        (sendText env text st).requests.length - st.requests.length := by
  obtain ⟨tr, fm, hlen, -, hrole, heq⟩ := sendText_turn_shape env text st h
  rw [heq]
  refine ⟨rfl, ⟨Role.user, jsTrim (text.getD st.input)⟩ :: tr, fm, hrole, ?_, ?_⟩
  · simp
  · simp

/-- Witness for C7: one concrete turn (the single response is a rejected
fetch). -/
theorem sendText_single_terminal_message_witness :
    (¬jsTrim ((some (("hi").toList)).getD (ChatState.mk [] [] false []).input) = []) ∧
    ((sendText (Env.mk [] true) (some (("hi").toList))
          (ChatState.mk [] [] false [])).thinking = false ∧
      ∃ (preceding : List Msg) (finalMsg : Msg),
        finalMsg.role = Role.assistant ∧
        (sendText (Env.mk [] true) (some (("hi").toList))
            (ChatState.mk [] [] false [])).messages =
          (ChatState.mk [] [] false []).messages ++ preceding ++ [finalMsg] ∧
        preceding.length =
          (sendText (Env.mk [] true) (some (("hi").toList))
              (ChatState.mk [] [] false [])).requests.length -
            (ChatState.mk [] [] false []).requests.length) :=
  ⟨by decide, sendText_single_terminal_message (Env.mk [] true) _ _ (by decide)⟩

/-- C8: with non-empty trimmed input, `sendText` is exactly the network
attempt run on the state obtained by first appending the user message and
clearing the input field — a step that issues no network call — and every
message appended after that user message (including everything a retry
appends) is assistant-role, so exactly one user message is appended per
logical turn and retries never duplicate it. -/
theorem sendText_user_message_once (env : Env) (text : Option Str)
    (st : ChatState) (h : ¬jsTrim (text.getD st.input) = []) :
    sendText env text st =
      sendTextAttempt 1 env (jsTrim (text.getD st.input)) 0
        (appendUserIfFirst (jsTrim (text.getD st.input)) 0 st) ∧
    (appendUserIfFirst (jsTrim (text.getD st.input)) 0 st).messages =
      st.messages ++ [⟨Role.user, jsTrim (text.getD st.input)⟩] ∧
    (appendUserIfFirst (jsTrim (text.getD st.input)) 0 st).input = [] ∧
    (appendUserIfFirst (jsTrim (text.getD st.input)) 0 st).requests = st.requests ∧
    ∃ rest : List Msg,
      (sendText env text st).messages =
        st.messages ++ ⟨Role.user, jsTrim (text.getD st.input)⟩ :: rest ∧
      ∀ m ∈ rest, m.role = Role.assistant := by
  refine ⟨sendTextFuel_of_nonempty 1 env text 0 st h, rfl, rfl, rfl, ?_⟩
  obtain ⟨tr, fm, -, htr, hrole, heq⟩ := sendText_turn_shape env text st h
  rw [heq]
  refine ⟨tr ++ [fm], by simp, ?_⟩
  intro m hm
  rcases List.mem_append.mp hm with hm | hm
  · exact htr m hm
  · rw [List.mem_singleton.mp hm]
    exact hrole

/-- Witness for C8 at a concrete input. -/
theorem sendText_user_message_once_witness :
    (¬jsTrim ((some (("hi").toList)).getD (ChatState.mk [] [] false []).input) = []) ∧
    (appendUserIfFirst
        (jsTrim ((some (("hi").toList)).getD (ChatState.mk [] [] false []).input)) 0
        (ChatState.mk [] [] false [])).requests =
      (ChatState.mk [] [] false []).requests ∧
    ∃ rest : List Msg,
      (sendText (Env.mk [] true) (some (("hi").toList))
          (ChatState.mk [] [] false [])).messages =
        (ChatState.mk [] [] false []).messages ++
          ⟨Role.user, jsTrim ((some (("hi").toList)).getD
            (ChatState.mk [] [] false []).input)⟩ :: rest ∧
      ∀ m ∈ rest, m.role = Role.assistant :=
  ⟨by decide,
    (sendText_user_message_once (Env.mk [] true) _ _ (by decide)).2.2.2.1,
    (sendText_user_message_once (Env.mk [] true) _ _ (by decide)).2.2.2.2⟩

/-- The HTTP 200 response `{ "text": "" }` (raw body and parse result). -/
def emptyTextResponse : FetchResult :=
  FetchResult.response 200 (("OK").toList) (("\x7b\x22text\x22:\x22\x22\x7d").toList)
    (some (Json.obj [(textKey, Json.str [])]))

/-- C3: when both attempts of a send receive HTTP 200 with body
`{"text":""}`, the logical turn makes exactly two network calls and
appends exactly two assistant messages — first the transient retry
notice, then the fixed terminal failure message — and nothing else. -/
theorem sendText_double_soft_failure (st : ChatState) (t : Str) (b : Bool)
    (h : ¬jsTrim t = []) :
    sendText (Env.mk [emptyTextResponse, emptyTextResponse] b) (some t) st =
      { messages := st.messages ++
          [⟨Role.user, jsTrim t⟩, ⟨Role.assistant, retryNoticeText⟩,
            ⟨Role.assistant, finalErrorText⟩],
        input := [],
        thinking := false,
        requests := st.requests ++
          [processQuestionMarks (jsTrim t), processQuestionMarks (jsTrim t)] } := by
  have htb : tryBlock emptyTextResponse = TryOutcome.threw JsError.errorCode200 := rfl
  have hidem : jsTrim (jsTrim t) = jsTrim t := jsTrim_idem t
  have hne : (jsTrim t).isEmpty = false := by simpa [List.isEmpty_iff] using h
  obtain ⟨msgs, inp, thk, reqs⟩ := st
  simp [sendText, sendTextFuel, sendTextAttempt, appendUserIfFirst, pushMsg,
    respAt, hne, hidem, htb, List.append_assoc]

/-- Witness for C3 at a concrete input and initial state. -/
theorem sendText_double_soft_failure_witness :
    (¬jsTrim (("hi").toList) = []) ∧
    sendText (Env.mk [emptyTextResponse, emptyTextResponse] true)
        (some (("hi").toList)) (ChatState.mk [] [] false []) =
      ChatState.mk
        [⟨Role.user, ("hi").toList⟩, ⟨Role.assistant, retryNoticeText⟩,
          ⟨Role.assistant, finalErrorText⟩]
        [] false [("hi").toList, ("hi").toList] :=
  ⟨by decide, sendText_double_soft_failure (ChatState.mk [] [] false [])
    (("hi").toList) true (by decide)⟩

/-- C4: if attempt one extracts a reply containing both "search results"
and "html" (case-insensitively), the send appends the "still thinking"
notice, does not display that reply, and retries exactly once; if attempt
two's reply has the same property it is displayed verbatim with no
further retry — two network calls in total. -/
theorem sendText_search_results_retry (env : Env) (text : Option Str)
    (st : ChatState) (t1 t2 : Str)
    (h : ¬jsTrim (text.getD st.input) = [])
    (h1 : tryBlock (respAt env 0) = TryOutcome.reply t1)
    (hs1 : containsSearchResultsAndHtml t1 = true)
    (h2 : tryBlock (respAt env 1) = TryOutcome.reply t2)
    (hs2 : containsSearchResultsAndHtml t2 = true) :
    sendText env text st =
      { messages := st.messages ++
          [⟨Role.user, jsTrim (text.getD st.input)⟩,
            ⟨Role.assistant, stillThinkingText⟩, ⟨Role.assistant, t2⟩],
        input := [],
        thinking := false,
        requests := st.requests ++
          [processQuestionMarks (jsTrim (text.getD st.input)),
            processQuestionMarks (jsTrim (text.getD st.input))] } := by
  have hidem : jsTrim (jsTrim (text.getD st.input)) = jsTrim (text.getD st.input) :=
    jsTrim_idem _
  have hne : (jsTrim (text.getD st.input)).isEmpty = false := by
    simpa [List.isEmpty_iff] using h
  obtain ⟨msgs, inp, thk, reqs⟩ := st
  simp [sendText, sendTextFuel, sendTextAttempt, appendUserIfFirst, pushMsg,
    hne, hidem, h1, hs1, h2, hs2, List.append_assoc]

/-- An HTTP 200 response whose `text` payload contains "Search Results"
and "Html". -/
def searchResultsResponse : FetchResult :=
  FetchResult.response 200 (("OK").toList) (("x").toList)
    (some (Json.obj [(textKey, Json.str (("Search Results in Html").toList))]))

/-- Witness for C4: both attempts answer with a search-results reply. -/
theorem sendText_search_results_retry_witness :
    containsSearchResultsAndHtml (("Search Results in Html").toList) = true ∧
    sendText (Env.mk [searchResultsResponse, searchResultsResponse] true)
        (some (("hi").toList)) (ChatState.mk [] [] false []) =
      ChatState.mk
        [⟨Role.user, ("hi").toList⟩, ⟨Role.assistant, stillThinkingText⟩,
          ⟨Role.assistant, ("Search Results in Html").toList⟩]
        [] false [("hi").toList, ("hi").toList] :=
  ⟨by decide,
    sendText_search_results_retry (Env.mk [searchResultsResponse, searchResultsResponse] true)
      (some (("hi").toList)) (ChatState.mk [] [] false [])
      (("Search Results in Html").toList) (("Search Results in Html").toList)
      (by decide) rfl (by decide) rfl (by decide)⟩

theorem isEmptyNullOrUndefined_iff (x : Option Json) :
    isEmptyNullOrUndefined x = true ↔
      x = none ∨ x = some Json.null ∨ x = some (Json.str []) := by
  cases x with
  | none => simp [isEmptyNullOrUndefined]
  | some v => cases v <;> simp [isEmptyNullOrUndefined, List.isEmpty_iff]

/-- The soft-failure condition as the amended claim states it: at HTTP
200, the payload is truthy and either carries a truthy `error` field, or
a truthy `errorRaw` field (the decode-failure marker), or its `text`
property is absent, `null`, or the empty string.  (Phrased from the
amended claim's words, to be compared against `errorCode200Cond`, which
is phrased from the code.) -/
def softFailureSpec (data : Json) : Prop :=
  jsTruthy data = true ∧
    (jsTruthyOpt (data.getProp errorKey) = true ∨
      jsTruthyOpt (data.getProp errorRawKey) = true ∨
      data.getProp textKey = none ∨
      data.getProp textKey = some Json.null ∨
      data.getProp textKey = some (Json.str []))

theorem errorCode200Cond_200_iff (data : Json) :
    errorCode200Cond 200 data = true ↔ softFailureSpec data := by
  unfold errorCode200Cond softFailureSpec
  simp only [Bool.and_eq_true, Bool.or_eq_true, isEmptyNullOrUndefined_iff]
  constructor
  · rintro ⟨⟨-, h1⟩, h2⟩
    exact ⟨h1, by tauto⟩
  · rintro ⟨h1, h2⟩
    exact ⟨⟨by decide, h1⟩, by tauto⟩

theorem tryBlock_200_iff_soft (statusText raw : Str) (parsed : Option Json) :
    tryBlock (FetchResult.response 200 statusText raw parsed) =
        TryOutcome.threw JsError.errorCode200 ↔
      softFailureSpec (dataOf raw parsed) := by
  show (if errorCode200Cond 200 (dataOf raw parsed) = true then
      TryOutcome.threw JsError.errorCode200
    else
      if (!resOk 200) = true then
        if ((200 : Nat) == 502 || (200 : Nat) == 404) = true then
          TryOutcome.threw (JsError.msg networkUnstableText)
        else
          TryOutcome.threw
            (JsError.msg (httpErrorText 200 statusText
              (serverMsgOf (dataOf raw parsed) raw)))
      else TryOutcome.reply (extractReply (dataOf raw parsed))) =
      TryOutcome.threw JsError.errorCode200 ↔
    softFailureSpec (dataOf raw parsed)
  by_cases hcond : errorCode200Cond 200 (dataOf raw parsed) = true
  · rw [if_pos hcond]
    simp [(errorCode200Cond_200_iff (dataOf raw parsed)).mp hcond]
  · rw [if_neg hcond, if_neg (by decide)]
    constructor
    · intro hcontra
      cases hcontra
    · intro hspec
      exact absurd ((errorCode200Cond_200_iff _).mpr hspec) hcond

/-- C1 (amended): at HTTP 200 the soft-failure classification holds
exactly when the decoded payload is truthy and has a truthy `error` or
`errorRaw` field or an absent/null/empty `text` property; consequently a
200 object payload with no `text` key — even one with a non-empty
`message` field — is classified as a soft failure, not as usable
(`message` is consulted for display only on non-200 2xx responses). -/
theorem tryBlock_200_soft_failure_characterization :
    (∀ (statusText raw : Str) (parsed : Option Json),
      tryBlock (FetchResult.response 200 statusText raw parsed) =
          TryOutcome.threw JsError.errorCode200 ↔
        softFailureSpec (dataOf raw parsed)) ∧
    (∀ (statusText raw : Str) (parsed : Option Json) (fields : List (Str × Json)),
      dataOf raw parsed = Json.obj fields →
      lookupKeyLast fields textKey = none →
      tryBlock (FetchResult.response 200 statusText raw parsed) =
        TryOutcome.threw JsError.errorCode200) := by
  refine ⟨tryBlock_200_iff_soft, ?_⟩
  intro statusText raw parsed fields hobj htext
  refine (tryBlock_200_iff_soft statusText raw parsed).mpr ?_
  rw [hobj]
  exact ⟨rfl, Or.inr (Or.inr (Or.inl (by simp [Json.getProp, htext])))⟩

/-- Witness for C1's amended characterization: a 200 object carrying only
a non-empty `message` is a soft failure. -/
theorem tryBlock_200_soft_failure_characterization_witness :
    dataOf (("x").toList) (some (Json.obj [(messageKey, Json.str (("hello").toList))])) =
      Json.obj [(messageKey, Json.str (("hello").toList))] ∧
    tryBlock (FetchResult.response 200 (("OK").toList) (("x").toList)
        (some (Json.obj [(messageKey, Json.str (("hello").toList))]))) =
      TryOutcome.threw JsError.errorCode200 :=
  ⟨rfl, tryBlock_200_soft_failure_characterization.2 (("OK").toList) (("x").toList)
    _ _ rfl rfl⟩

/-- An HTTP 200 response whose object body has a non-empty `message`
field but no `text` field. -/
def messageOnlyResponse : FetchResult :=
  FetchResult.response 200 (("OK").toList) (("x").toList)
    (some (Json.obj [(messageKey, Json.str (("hi there").toList))]))

/-- C1 counterexample: an HTTP 200 object body with a non-empty string
`message` and no `text` field is *not* classified as usable — the code
throws ERROR_CODE_200 (soft failure), and the turn ends in the retry
notice plus the terminal failure message instead of displaying the
`message` text. -/
theorem message_only_200_counterexample :
    tryBlock messageOnlyResponse = TryOutcome.threw JsError.errorCode200 ∧
    sendText (Env.mk [messageOnlyResponse, messageOnlyResponse] true)
        (some (("hi").toList)) (ChatState.mk [] [] false []) =
      ChatState.mk
        [⟨Role.user, ("hi").toList⟩, ⟨Role.assistant, retryNoticeText⟩,
          ⟨Role.assistant, finalErrorText⟩]
        [] false [("hi").toList, ("hi").toList] := by
  constructor
  · rfl
  · decide

/-- An HTTP 200 response whose non-empty body fails to decode as JSON. -/
def unparsableResponse : FetchResult :=
  FetchResult.response 200 (("OK").toList) (("notjson").toList) none

/-- C5 counterexample: a decode failure at HTTP 200 is *not* treated as a
generic error — the `errorRaw` marker makes the ERROR_CODE_200 check
fire, so the send retries (two network calls, retry notice + terminal
failure message) instead of appending a single error message with no
retry. -/
theorem decode_failure_200_retries_counterexample :
    sendText (Env.mk [unparsableResponse, unparsableResponse] true)
        (some (("hi").toList)) (ChatState.mk [] [] false []) =
      ChatState.mk
        [⟨Role.user, ("hi").toList⟩, ⟨Role.assistant, retryNoticeText⟩,
          ⟨Role.assistant, finalErrorText⟩]
        [] false [("hi").toList, ("hi").toList] ∧
    ¬(sendText (Env.mk [unparsableResponse, unparsableResponse] true)
        (some (("hi").toList)) (ChatState.mk [] [] false [])).requests.length = 1 := by
  constructor
  · decide
  · decide

/-- C5 (amended): when the body fails to decode as JSON and the HTTP
status is not 2xx, the send treats it as a generic error: exactly one
network call and exactly one user-visible error message, no retry.  (At
status 200 a decode failure instead takes the soft-failure retry path —
see the counterexample.) -/
theorem sendText_decode_failure_non2xx_single_error (env : Env)
    (text : Option Str) (st : ChatState) (status : Nat) (statusText raw : Str)
    (h0 : respAt env 0 = FetchResult.response status statusText raw none)
    (h1 : resOk status = false)
    (hraw : ¬raw = [])
    (h : ¬jsTrim (text.getD st.input) = []) :
    ∃ m : Str,
      sendText env text st =
        { messages := st.messages ++
            [⟨Role.user, jsTrim (text.getD st.input)⟩, ⟨Role.assistant, m⟩],
          input := [],
          thinking := false,
          requests := st.requests ++
            [processQuestionMarks (jsTrim (text.getD st.input))] } := by
  have hne : (jsTrim (text.getD st.input)).isEmpty = false := by
    simpa [List.isEmpty_iff] using h
  have hs200 : ¬status = 200 := by
    intro hq
    rw [hq] at h1
    exact absurd h1 (by decide)
  have hst : (status == 200) = false := by
    rw [Bool.eq_false_iff]
    intro hbeq
    exact hs200 (by simpa using hbeq)
  have hcond : errorCode200Cond status (dataOf raw none) = false := by
    unfold errorCode200Cond
    simp [hst]
  have hok : (!resOk status) = true := by simp [h1]
  have htb : ∃ em, tryBlock (respAt env 0) = TryOutcome.threw (JsError.msg em) := by
    rw [h0]
    cases hn : ((status == 502 || status == 404) : Bool) with
    | true =>
      exact ⟨networkUnstableText, by simp [tryBlock, hcond, hok, hn]⟩
    | false =>
      exact ⟨httpErrorText status statusText (serverMsgOf (dataOf raw none) raw),
        by simp [tryBlock, hcond, hok, hn]⟩
  obtain ⟨em, htbe⟩ := htb
  refine ⟨friendlyOf env.onLine em, ?_⟩
  obtain ⟨msgs, inp, thk, reqs⟩ := st
  simp [sendText, sendTextFuel, sendTextAttempt, appendUserIfFirst, pushMsg,
    hne, htbe, List.append_assoc]

/-- Witness for C5's amended claim: HTTP 500 with the undecodable body
`notjson`. -/
theorem sendText_decode_failure_non2xx_single_error_witness :
    resOk 500 = false ∧
    ∃ m : Str,
      sendText
          (Env.mk [FetchResult.response 500 (("Internal Server Error").toList)
            (("notjson").toList) none] true)
          (some (("hi").toList)) (ChatState.mk [] [] false []) =
        ChatState.mk
          [⟨Role.user, ("hi").toList⟩, ⟨Role.assistant, m⟩]
          [] false [("hi").toList] :=
  ⟨by decide,
    sendText_decode_failure_non2xx_single_error
      (Env.mk [FetchResult.response 500 (("Internal Server Error").toList)
        (("notjson").toList) none] true)
      (some (("hi").toList)) (ChatState.mk [] [] false [])
      500 (("Internal Server Error").toList) (("notjson").toList)
      rfl (by decide) (by decide) (by decide)⟩

/-- C10: the soft-failure check fires only at status exactly 200; a 2xx
status other than 200 whose decoded body is an object with no keys other
than (possibly) `clientId` — e.g. a 204 whose empty body decodes to `{}`
— yields exactly one assistant message with the fixed text
"Network error, please try again." and no retry. -/
theorem sendText_non200_2xx_plain_object (env : Env) (text : Option Str)
    (st : ChatState) (status : Nat) (statusText raw : Str)
    (parsed : Option Json) (fields : List (Str × Json))
    (h0 : respAt env 0 = FetchResult.response status statusText raw parsed)
    (h1 : resOk status = true)
    (h2 : ¬status = 200)
    (h3 : dataOf raw parsed = Json.obj fields)
    (h4 : ∀ kv ∈ fields, kv.1 = clientIdKey)
    (h : ¬jsTrim (text.getD st.input) = []) :
    sendText env text st =
      { messages := st.messages ++
          [⟨Role.user, jsTrim (text.getD st.input)⟩,
            ⟨Role.assistant, networkErrorText⟩],
        input := [],
        thinking := false,
        requests := st.requests ++
          [processQuestionMarks (jsTrim (text.getD st.input))] } := by
  have hne : (jsTrim (text.getD st.input)).isEmpty = false := by
    simpa [List.isEmpty_iff] using h
  have hst : (status == 200) = false := by
    rw [Bool.eq_false_iff]
    intro hbeq
    exact h2 (by simpa using hbeq)
  have hcond : errorCode200Cond status (dataOf raw parsed) = false := by
    unfold errorCode200Cond
    simp [hst]
  have hok : (!resOk status) = false := by simp [h1]
  have htext : Json.hasKey (Json.obj fields) textKey = false := by
    rw [Bool.eq_false_iff]
    intro hany
    obtain ⟨kv, hkv, heq⟩ := List.any_eq_true.mp hany
    rw [h4 kv hkv] at heq
    exact absurd (of_decide_eq_true heq) (by decide)
  have hmsg : Json.hasKey (Json.obj fields) messageKey = false := by
    rw [Bool.eq_false_iff]
    intro hany
    obtain ⟨kv, hkv, heq⟩ := List.any_eq_true.mp hany
    rw [h4 kv hkv] at heq
    exact absurd (of_decide_eq_true heq) (by decide)
  have hfil : fields.filter (fun kv => !(kv.1 = clientIdKey)) = [] := by
    rw [List.filter_eq_nil_iff]
    intro kv hkv
    simp [h4 kv hkv]
  have hex : extractReply (dataOf raw parsed) = networkErrorText := by
    rw [h3]
    simp [extractReply, htext, hmsg, hfil]
  have hreply : tryBlock (respAt env 0) = TryOutcome.reply networkErrorText := by
    rw [h0]
    simp [tryBlock, hcond, hok, hex]
  have hnotsr : containsSearchResultsAndHtml networkErrorText = false := by decide
  obtain ⟨msgs, inp, thk, reqs⟩ := st
  simp [sendText, sendTextFuel, sendTextAttempt, appendUserIfFirst, pushMsg,
    hne, hreply, hnotsr, List.append_assoc]

/-- Witness for C10: a 204 response with an empty body. -/
theorem sendText_non200_2xx_plain_object_witness :
    resOk 204 = true ∧
    sendText
        (Env.mk [FetchResult.response 204 (("No Content").toList) [] none] true)
        (some (("hi").toList)) (ChatState.mk [] [] false []) =
      ChatState.mk
        [⟨Role.user, ("hi").toList⟩, ⟨Role.assistant, networkErrorText⟩]
        [] false [("hi").toList] :=
  ⟨by decide,
    sendText_non200_2xx_plain_object
      (Env.mk [FetchResult.response 204 (("No Content").toList) [] none] true)
      (some (("hi").toList)) (ChatState.mk [] [] false [])
      204 (("No Content").toList) [] none []
      rfl (by decide) (by decide) rfl (by simp) (by decide)⟩
